/-
Verification of the OptiMetrics metrics pipeline and sync protocol.

Shallow embedding of the relevant Python source:
  - src/hardware_logger.py   (MetricsBuffer: delta filtering)
  - src/data_manager.py      (DeviceDataManager: categorization, CSV writer
                              state, sync cursors, row extraction)
  - src/cloud_sync.py        (sync protocol driving mark_uploaded)
  - src/adapters/network_adapter.py, src/adapters/disk_adapter.py
                             (throughput-rate guard)

Python numbers (int/float) are embedded as exact rationals; string operations
are embedded over character lists.
-/

import Mathlib

set_option maxRecDepth 4000
set_option linter.unnecessarySeqFocus false
set_option linter.unreachableTactic false
set_option linter.unusedTactic false

/-- Absolute value on ℚ, written out so that concrete evaluation reduces in
the kernel (embeds Python `abs`). -/
def qabs (q : ℚ) : ℚ := if q < 0 then -q else q

theorem qabs_eq_abs (q : ℚ) : qabs q = |q| := by
  unfold qabs
  rcases lt_or_ge q 0 with h | h
  · simp [h, abs_of_neg h]
  · simp [not_lt.mpr h, abs_of_nonneg h]

/-- Value of a Python metrics-dictionary entry: a number or a string. -/
inductive PyVal where
  | num (q : ℚ)
  | str (s : String)
deriving DecidableEq, Repr

/-- Truth of `isinstance(value, (int, float))` for an embedded value. -/
def PyVal.isNum : PyVal → Bool
  | .num _ => true
  | .str _ => false

/-- Snapshot of metrics: an ordered association list embedding a Python dict
(keys unique, iteration in insertion order). -/
abbrev Snapshot := List (String × PyVal)

/-- Dictionary of stored last values (`MetricsBuffer._last_values`). -/
abbrev LastVals := List (String × ℚ)

/-- Python `d.get(k)` on a dict embedded as an association list. -/
def dictFind {α : Type} (k : String) : List (String × α) → Option α
  | [] => none
  | (k0, v0) :: rest => if k0 = k then some v0 else dictFind k rest

/-- Python `d[k] = v` on a dict embedded as an association list: overwrite in
place if the key is present, append otherwise. -/
def dictSet {α : Type} (d : List (String × α)) (k : String) (v : α) :
    List (String × α) :=
  match d with
  | [] => [(k, v)]
  | (k0, v0) :: rest =>
      if k0 = k then (k0, v) :: rest else (k0, v0) :: dictSet rest k v

/-- State of `MetricsBuffer` (src/hardware_logger.py lines 81-95): delta
filtering flag and threshold from config, buffered snapshots, stored last
numeric values. -/
structure MetricsBuffer where
  enableDelta : Bool
  deltaThreshold : ℚ
  buffer : List Snapshot
  lastValues : LastVals
deriving DecidableEq, Repr

/-- Fresh buffer with default config (`enable_delta_filtering` true,
`delta_threshold_percent` 2.0). -/
def MetricsBuffer.fresh : MetricsBuffer :=
  { enableDelta := true, deltaThreshold := 2, buffer := [], lastValues := [] }

/-- Significance scan of `MetricsBuffer.add` (src/hardware_logger.py lines
107-121): loop over the snapshot items, skipping `timestamp` and
`session_category`; for a numeric value, if the stored last value is present
and non-zero compare the relative change against the threshold, break on the
first significant field; a field with no stored last value, or a stored zero
with a non-zero new value, is significant. -/
def checkSignificant (lastVals : LastVals) (thr : ℚ) : Snapshot → Bool
  | [] => false
  | (k, v) :: rest =>
      if k = "timestamp" ∨ k = "session_category" then
        checkSignificant lastVals thr rest
      else
        match v with
        | .str _ => checkSignificant lastVals thr rest
        | .num q =>
            match dictFind k lastVals with
            | some lv =>
                if lv ≠ 0 then
                  if qabs (q - lv) / qabs lv * 100 ≥ thr then true
                  else checkSignificant lastVals thr rest
                else
                  if q ≠ 0 then true else checkSignificant lastVals thr rest
            | none => true

/-- Update of `MetricsBuffer._last_values` (src/hardware_logger.py lines
127-129): every numeric field of the retained snapshot overwrites its stored
last value. -/
def updateLastValues (lastVals : LastVals) : Snapshot → LastVals
  | [] => lastVals
  | (k, v) :: rest =>
      match v with
      | .num q => updateLastValues (dictSet lastVals k q) rest
      | .str _ => updateLastValues lastVals rest

/-- Embedding of `MetricsBuffer.add` (src/hardware_logger.py lines 97-132):
returns whether the snapshot was retained, together with the new state. -/
def MetricsBuffer.add (st : MetricsBuffer) (m : Snapshot) :
    Bool × MetricsBuffer :=
  if st.enableDelta ∧ st.lastValues ≠ [] then
    if checkSignificant st.lastValues st.deltaThreshold m then
      (true, { st with lastValues := updateLastValues st.lastValues m,
                       buffer := st.buffer ++ [m] })
    else
      (false, st)
  else
    (true, { st with lastValues := updateLastValues st.lastValues m,
                     buffer := st.buffer ++ [m] })

/-- Embedding of `MetricsBuffer.get_batch` (src/hardware_logger.py lines
134-139): drain and clear the buffer. -/
def MetricsBuffer.getBatch (st : MetricsBuffer) :
    List Snapshot × MetricsBuffer :=
  (st.buffer, { st with buffer := [] })

/-- Sequence of `add` calls, collecting each returned flag. -/
def MetricsBuffer.addAll (st : MetricsBuffer) :
    List Snapshot → List Bool × MetricsBuffer
  | [] => ([], st)
  | m :: rest =>
      let r := st.add m
      let t := r.2.addAll rest
      (r.1 :: t.1, t.2)

/-- Modelled from the claim wording of C3 (not from the source): a field is
significant iff it changed by at least the threshold relative to a non-zero
stored last value, or it is newly non-zero where it was previously zero or
absent. -/
def claimSignificant (lastVals : LastVals) (thr : ℚ) (m : Snapshot) : Bool :=
  m.any fun kv =>
    if kv.1 = "timestamp" ∨ kv.1 = "session_category" then false
    else
      match kv.2 with
      | .str _ => false
      | .num q =>
          match dictFind kv.1 lastVals with
          | some lv =>
              if lv ≠ 0 then decide (qabs (q - lv) / qabs lv * 100 ≥ thr)
              else decide (q ≠ 0)
          | none => decide (q ≠ 0)


/-- Declarative reading of the significance condition implemented by
`checkSignificant`: a numeric field is significant when its stored last value
is absent (any new value), or zero with a non-zero new value, or non-zero with
a relative change of at least the threshold. -/
def SignificantField (lastVals : LastVals) (thr : ℚ) (k : String) (q : ℚ) :
    Prop :=
  match dictFind k lastVals with
  | none => True
  | some lv =>
      (lv ≠ 0 ∧ qabs (q - lv) / qabs lv * 100 ≥ thr) ∨ (lv = 0 ∧ q ≠ 0)

instance (lastVals : LastVals) (thr : ℚ) (k : String) (q : ℚ) :
    Decidable (SignificantField lastVals thr k q) := by
  unfold SignificantField
  cases dictFind k lastVals <;> infer_instance

/-- Check that a character list begins with the pattern. -/
def listStarts : List Char → List Char → Bool
  | [], _ => true
  | _ :: _, [] => false
  | a :: as, b :: bs => a == b && listStarts as bs

/-- Check that the pattern occurs as a contiguous run of the character list
(Python `pat in s`). -/
def hasSubL (pat : List Char) : List Char → Bool
  | [] => pat.isEmpty
  | c :: t => listStarts pat (c :: t) || hasSubL pat t

/-- Python `s.startswith(pat)`. -/
def strStarts (s pat : String) : Bool := listStarts pat.toList s.toList

/-- Python `pat in s`. -/
def strHasSub (pat s : String) : Bool := hasSubL pat.toList s.toList

/-- Lower-case an ASCII character (embeds Python `str.lower` on the key
alphabet used by the adapters). -/
def charLower (c : Char) : Char :=
  if 65 ≤ c.toNat ∧ c.toNat ≤ 90 then Char.ofNat (c.toNat + 32) else c

/-- Python `s.lower()`. -/
def strLower (s : String) : String := ⟨s.toList.map charLower⟩

/-- CPU key patterns of `DeviceDataManager._categorize_metrics`
(src/data_manager.py lines 321-325). -/
def cpuKeys : List String :=
  ["core_", "total_utilization", "avg_freq", "freq_mhz", "freq_min",
   "freq_max", "context_switches", "interrupts", "soft_interrupts",
   "temperature", "power_watts", "syscalls", "load_avg", "load_1",
   "load_5", "load_15"]

/-- CPU-specific keys excluded from GPU matching (src/data_manager.py lines
327-331). -/
def cpuSpecific : List String :=
  ["core_0", "core_1", "core_2", "core_3", "core_4", "core_5",
   "core_6", "core_7", "core_8", "core_9", "core_10", "core_11",
   "core_12", "core_13", "core_14", "core_15", "core_16", "core_17",
   "core_18", "core_19", "total_utilization", "avg_freq",
   "context_switches", "soft_interrupts", "load_avg", "interrupts"]

/-- NVIDIA GPU key patterns (src/data_manager.py lines 345-350). -/
def nvidiaKeys : List String :=
  ["utilization", "vram_", "temperature", "power_watts", "power_limit",
   "core_clock", "memory_clock", "sm_clock", "fan_speed",
   "pcie_tx", "pcie_rx", "encoder_", "decoder_",
   "compute_processes", "graphics_processes", "performance_state"]

/-- Memory key patterns (src/data_manager.py line 383). -/
def memKeys : List String := ["ram_", "swap_", "memory_"]

/-- Disk key patterns (src/data_manager.py line 394). -/
def diskKeys : List String :=
  ["disk_", "read_bytes", "write_bytes", "read_count", "write_count", "io_"]

/-- Network key patterns (src/data_manager.py line 406). -/
def netKeys : List String :=
  ["net_", "bytes_sent", "bytes_recv", "packets_", "errors_", "drop_"]

/-- CPU rule: `any(key.startswith(p) or key == p for p in cpu_keys)`. -/
def cpuKeep (k : String) : Bool :=
  cpuKeys.any fun p => strStarts k p || decide (k = p)

/-- NVIDIA GPU rule (src/data_manager.py lines 354-364): skip CPU-specific
substrings, memory/disk/network re-matches and intel keys, then match the
nvidia patterns as substrings of the lowered key. -/
def gpuKeep (k : String) : Bool :=
  !(cpuSpecific.any fun ck => strHasSub ck k) &&
  !(["ram_", "swap_", "disk_", "net_"].any fun p => strStarts k p) &&
  !(strHasSub "intel" (strLower k)) &&
  (nvidiaKeys.any fun p => strHasSub p (strLower k))

/-- Intel GPU rule: `"intel" in key.lower()`. -/
def intelKeep (k : String) : Bool := strHasSub "intel" (strLower k)

/-- Memory rule: `any(key.startswith(p) for p in mem_keys)`. -/
def memKeep (k : String) : Bool := memKeys.any fun p => strStarts k p

/-- Disk rule (src/data_manager.py lines 397-401): pattern is a key head or a
run of the lowered key, excluding memory-headed keys. -/
def diskKeep (k : String) : Bool :=
  (diskKeys.any fun p => strStarts k p || strHasSub p (strLower k)) &&
  !(memKeys.any fun p => strStarts k p)

/-- Network rule: `any(key.startswith(p) or p in key.lower() for p in
net_keys)`. -/
def netKeep (k : String) : Bool :=
  netKeys.any fun p => strStarts k p || strHasSub p (strLower k)

/-- Record construction loop of `_categorize_metrics`: scan the snapshot in
order and set `pre + key` in the record for each key the rule keeps. -/
def addMatched (pre : String) (keep : String → Bool) (acc : Snapshot) :
    Snapshot → Snapshot
  | [] => acc
  | (k, v) :: rest =>
      addMatched pre keep (if keep k then dictSet acc (pre ++ k) v else acc)
        rest

/-- Hardware types in declaration order (`DeviceDataManager.HARDWARE_TYPES`,
src/data_manager.py lines 55-62). -/
def hardwareTypes : List String :=
  ["cpu", "gpu_nvidia", "gpu_intel", "memory", "disk", "network"]

/-- Embedding of `DeviceDataManager._categorize_metrics` (src/data_manager.py
lines 303-416): the per-hardware-type record lists for one snapshot, in
`HARDWARE_TYPES` order. Each list is empty or a single record; the nvidia and
intel records additionally receive `gpu_index = 0`. -/
def categorizeMetrics (metrics : Snapshot) (ts hid : String) :
    List (String × List Snapshot) :=
  let base : Snapshot := [("timestamp", .str ts), ("hardware_id", .str hid)]
  let mk := fun (pre : String) (keep : String → Bool) (gpuIdx : Bool) =>
    if metrics.any (fun p => keep p.1) then
      let r := addMatched pre keep base metrics
      [if gpuIdx then dictSet r "gpu_index" (.num 0) else r]
    else []
  [("cpu", mk "cpu_" cpuKeep false),
   ("gpu_nvidia", mk "gpu_" gpuKeep true),
   ("gpu_intel", mk "" intelKeep true),
   ("memory", mk "" memKeep false),
   ("disk", mk "" diskKeep false),
   ("network", mk "" netKeep false)]

/-- Rows-written map of `DeviceDataManager.write_metrics` (src/data_manager.py
lines 287-299) in the failure-free case: types with a non-empty record list
report their record count. -/
def rowsWritten (metrics : Snapshot) (ts hid : String) :
    List (String × ℕ) :=
  (categorizeMetrics metrics ts hid).filterMap fun p =>
    if p.2.isEmpty then none else some (p.1, p.2.length)

/-- Modelled from the claim wording of C5 (not from the source): the network
rule set as the claim states it, keys starting with or containing `net_`,
`packets_` or `drop_`. -/
def claimNetRule (k : String) : Bool :=
  ["net_", "packets_", "drop_"].any fun p => strStarts k p || strHasSub p k


/-- Per-hardware-type CSV writer state for one open `DeviceDataManager`
process: the on-disk file (header line, if any, plus data rows) and the
fieldnames of the cached `csv.DictWriter`, if one has been created. -/
structure WriterFile where
  fileHeader : Option (List String)
  fileRows : List (List String)
  writerFields : Option (List String)
deriving DecidableEq, Repr

/-- Fresh state: no file on disk, no cached writer. -/
def WriterFile.empty : WriterFile :=
  { fileHeader := none, fileRows := [], writerFields := none }

/-- Projection of a record onto the writer fieldnames, as
`csv.DictWriter.writerow` with `extrasaction="ignore"` does: one cell per
fieldname (empty when the record lacks the key), record keys outside the
fieldnames dropped. -/
def projectRow (fields : List String) (record : Snapshot) : List String :=
  fields.map fun f =>
    match dictFind f record with
    | some (.num q) => toString q.num ++ "/" ++ toString q.den
    | some (.str s) => s
    | none => ""

/-- Merge loop of `DeviceDataManager._get_writer` (src/data_manager.py lines
240-244): append record columns missing from the existing header. -/
def mergeColumns (existing : List String) : List String → List String
  | [] => existing
  | c :: rest =>
      mergeColumns (if existing.contains c then existing else existing ++ [c])
        rest

/-- Embedding of `DeviceDataManager._get_writer` followed by
`writer.writerow(record)` (src/data_manager.py lines 209-264 and 292-293).
When a cached writer exists it is returned unchanged whether or not the record
introduces new columns (the new-column branch falls through without
recreating the writer, src/data_manager.py lines 218-224). Otherwise a writer
is created: its fieldnames are the record keys, merged after any header
already on disk; a header line is written only when the file is empty
(src/data_manager.py lines 234-262). The row is then written projected onto
the writer fieldnames. -/
def writeRecord (st : WriterFile) (record : Snapshot) : WriterFile :=
  let recordColumns := record.map Prod.fst
  match st.writerFields with
  | some fields =>
      { st with fileRows := st.fileRows ++ [projectRow fields record] }
  | none =>
      match st.fileHeader with
      | some existing =>
          let fields := mergeColumns existing recordColumns
          { st with writerFields := some fields,
                    fileRows := st.fileRows ++ [projectRow fields record] }
      | none =>
          { fileHeader := some recordColumns,
            writerFields := some recordColumns,
            fileRows := [projectRow recordColumns record] }

/-- Write loop of `DeviceDataManager.write_metrics` (src/data_manager.py lines
287-299) over the categorized record lists, with an explicit set of hardware
types whose first `writerow` raises an I/O error. On success the rows-written
association list is returned; when a type's write raises, the exception
propagates out of `write_metrics` (there is no per-type handler) and the
error carries the rows written for the types processed before it. -/
def writeLoop (failing : List String) :
    List (String × List Snapshot) → Except (List (String × ℕ))
      (List (String × ℕ))
  | [] => .ok []
  | (t, recs) :: rest =>
      if recs.isEmpty then writeLoop failing rest
      else if failing.contains t then .error []
      else
        match writeLoop failing rest with
        | .ok l => .ok ((t, recs.length) :: l)
        | .error l => .error ((t, recs.length) :: l)

/-- Result of a `write_metrics` call on one snapshot given the set of
hardware types whose file write raises: `ok` with the rows_written map, or
`error` with the types already written when the exception escaped. -/
def writeMetricsRun (failing : List String) (metrics : Snapshot)
    (ts hid : String) : Except (List (String × ℕ)) (List (String × ℕ)) :=
  writeLoop failing (categorizeMetrics metrics ts hid)

/-- Embedding of the `HardwareFile` dataclass (src/data_manager.py lines
27-35) without the key, which indexes the association list. -/
structure HardwareFile where
  localPath : String
  cloudFileId : Option String
  lastRowUploaded : ℕ
  totalRows : ℕ
  lastModified : Option String
deriving DecidableEq, Repr

/-- The `DeviceDataManager._files` map: hardware type to file cursor. -/
abbrev Files := List (String × HardwareFile)

/-- Embedding of `DeviceDataManager.get_pending_uploads` (src/data_manager.py
lines 418-434): `(hw_type, path, last_row_uploaded, total_rows)` for each
type with `total_rows > last_row_uploaded`. -/
def getPendingUploads : Files → List (String × String × ℕ × ℕ)
  | [] => []
  | (t, g) :: rest =>
      if g.totalRows > g.lastRowUploaded then
        (t, g.localPath, g.lastRowUploaded, g.totalRows) ::
          getPendingUploads rest
      else getPendingUploads rest

/-- Embedding of `DeviceDataManager.mark_uploaded` (src/data_manager.py lines
436-453): when the type is present, set its cursor to the uploaded row count
and record the cloud file id; otherwise no change. -/
def markUploaded (fs : Files) (tk : String) (n : ℕ) (cid : String) : Files :=
  match fs with
  | [] => []
  | (t, g) :: rest =>
      if t = tk then
        (t, { g with lastRowUploaded := n, cloudFileId := some cid }) :: rest
      else (t, g) :: markUploaded rest tk n cid

/-- Row-count effect of `DeviceDataManager.write_metrics` (src/data_manager.py
lines 291-298): each present hardware type gains its written record count and
types with records get a new `last_modified`. -/
def incrRows (added : List (String × ℕ)) (ts : String) : Files → Files
  | [] => []
  | (t, g) :: rest =>
      let k := (dictFind t added).getD 0
      (t, { g with totalRows := g.totalRows + k,
                   lastModified := if k > 0 then some ts else g.lastModified })
        :: incrRows added ts rest

/-- Cursor-mutating events of a `DeviceDataManager` process lifetime: a
`write_metrics` call (per-type row counts) or a `mark_uploaded` call from the
sync engine. -/
inductive DMEvent where
  | write (added : List (String × ℕ)) (ts : String)
  | mark (t : String) (n : ℕ) (cid : String)
deriving DecidableEq, Repr

/-- Apply one event to the cursor map. -/
def applyEvent (fs : Files) : DMEvent → Files
  | .write added ts => incrRows added ts fs
  | .mark t n cid => markUploaded fs t n cid

/-- Run a list of events. -/
def runEvents (fs : Files) : List DMEvent → Files
  | [] => fs
  | e :: rest => runEvents (applyEvent fs e) rest

/-- Row total of a hardware type (0 when absent). -/
def totalOf (fs : Files) (t : String) : ℕ :=
  ((dictFind t fs).map HardwareFile.totalRows).getD 0

/-- Uploaded cursor of a hardware type (0 when absent). -/
def lastOf (fs : Files) (t : String) : ℕ :=
  ((dictFind t fs).map HardwareFile.lastRowUploaded).getD 0

/-- Protocol followed by `CloudSyncManager.sync` (src/cloud_sync.py lines
334-344): every `mark_uploaded(t, n, id)` it issues uses as `n` the `end_row`
of a pending tuple, which was the `total_rows` of `t` at the earlier moment
`get_pending_uploads` read the cursor, and it does so only after
`_upload_or_append_file` returned success for that tuple. -/
def SyncProtocol (fs0 : Files) (evs : List DMEvent) : Prop :=
  ∀ i t n cid, evs[i]? = some (.mark t n cid) →
    ∃ j ≤ i, n = totalOf (runEvents fs0 (evs.take j)) t

/-- JSON values, embedding the possible contents of `sync_state.json`. -/
inductive JVal where
  | jnull
  | jbool (b : Bool)
  | jnum (q : ℚ)
  | jstr (s : String)
  | jarr (l : List JVal)
  | jobj (l : List (String × JVal))

/-- Observable condition of the sync-state file at startup: missing, present
but unreadable (I/O error), present but not JSON (decode error), or present
with parsed JSON content. -/
inductive SyncFileContent where
  | absent
  | unreadable
  | invalidJson
  | parsed (v : JVal)

/-- Default sync state (src/data_manager.py lines 145-149). -/
def defaultSyncState : JVal :=
  .jobj [("files", .jobj []), ("last_sync", .jnull),
         ("device_folder_id", .jnull)]

/-- Embedding of `DeviceDataManager._load_sync_state` (src/data_manager.py
lines 136-149): a missing file, an I/O error, or a JSON decode error yields
the default state; any parsed JSON value is returned as-is. -/
def loadSyncState : SyncFileContent → JVal
  | .absent => defaultSyncState
  | .unreadable => defaultSyncState
  | .invalidJson => defaultSyncState
  | .parsed v => v

/-- Python `value.get(key, default)`: succeeds only when the value is a dict
(any other value raises `AttributeError`, embedded as `error`). -/
def pyGet (v : JVal) (k : String) (d : JVal) : Except Unit JVal :=
  match v with
  | .jobj l => .ok ((dictFind k l).getD d)
  | _ => .error ()

/-- Loop body of `DeviceDataManager._init_files` (src/data_manager.py lines
181-207) over the hardware types: read the per-type cursor fields out of the
loaded sync state with chained `.get` calls; each entry also records the row
count recovered from the local CSV file. -/
def initFilesLoop (state : JVal) (rowCount : String → ℕ) :
    List String → Except Unit (List (String × JVal × JVal × JVal × ℕ))
  | [] => .ok []
  | t :: rest => do
      let filesV ← pyGet state "files" (.jobj [])
      let fileState ← pyGet filesV t (.jobj [])
      let cid ← pyGet fileState "cloud_file_id" .jnull
      let lru ← pyGet fileState "last_row_uploaded" (.jnum 0)
      let lm ← pyGet fileState "last_modified" .jnull
      let tail ← initFilesLoop state rowCount rest
      pure ((t, cid, lru, lm, rowCount t) :: tail)

/-- Embedding of the `DeviceDataManager` constructor path that consumes the
sync-state file (src/data_manager.py lines 105-134): `_load_sync_state`
followed by `_init_files`. Returns the loaded state and the initialized
per-type entries, or an error when an uncaught exception escapes
`__init__`. -/
def constructManager (content : SyncFileContent) (rowCount : String → ℕ) :
    Except Unit (JVal × List (String × JVal × JVal × JVal × ℕ)) :=
  let st := loadSyncState content
  (initFilesLoop st rowCount hardwareTypes).map fun l => (st, l)

/-- Row loop of `extract_rows_from_csv` (src/data_manager.py lines 530-535)
over the data rows (the header is consumed by `csv.DictReader` before the
loop): skip rows before `start_row`, stop at `end_row` when given, keep the
rest. `i` is the 0-based index of the first remaining row. -/
def extractLoop {α : Type} : List α → ℕ → ℕ → Option ℕ → List α
  | [], _, _, _ => []
  | r :: rest, i, s, e =>
      if i < s then extractLoop rest (i + 1) s e
      else if (match e with | some ev => decide (i ≥ ev) | none => false) then
        []
      else r :: extractLoop rest (i + 1) s e

/-- Embedding of `extract_rows_from_csv` (src/data_manager.py lines 507-537)
on the list of data rows of the file. -/
def extractRowsFromCsv {α : Type} (rows : List α) (startRow : ℕ)
    (endRow : Option ℕ) : List α :=
  extractLoop rows 0 startRow endRow

/-- Cumulative network I/O counters (`psutil.net_io_counters`). -/
structure NetCounters where
  bytesSent : ℤ
  bytesRecv : ℤ
  packetsSent : ℤ
  packetsRecv : ℤ
  errin : ℤ
  errout : ℤ
  dropin : ℤ
  dropout : ℤ
deriving DecidableEq, Repr

/-- The four network throughput-rate keys. -/
def netRateKeys : List String :=
  ["net_send_rate_mbps", "net_recv_rate_mbps",
   "net_send_rate_kbps", "net_recv_rate_kbps"]

/-- Embedding of the total-I/O section of `NetworkAdapter.collect_metrics`
(src/adapters/network_adapter.py lines 92-179): the eight absolute counters
are always emitted; the four throughput rates are emitted only when previous
counters exist and the elapsed time `now - pt` is strictly positive
(`if time_delta > 0`, line 147). Python `round(x, 2)` display rounding is
omitted; values are exact rationals. -/
def netIoMetrics (ctr : NetCounters) (prev : Option (NetCounters × ℚ))
    (now : ℚ) : List (String × ℚ) :=
  [("net_bytes_sent", (ctr.bytesSent : ℚ)),
   ("net_bytes_recv", (ctr.bytesRecv : ℚ)),
   ("net_packets_sent", (ctr.packetsSent : ℚ)),
   ("net_packets_recv", (ctr.packetsRecv : ℚ)),
   ("net_errin", (ctr.errin : ℚ)),
   ("net_errout", (ctr.errout : ℚ)),
   ("net_dropin", (ctr.dropin : ℚ)),
   ("net_dropout", (ctr.dropout : ℚ))] ++
  (match prev with
   | none => []
   | some (pc, pt) =>
       if now - pt > 0 then
         let sendRate := ((ctr.bytesSent : ℚ) - (pc.bytesSent : ℚ)) /
           (now - pt)
         let recvRate := ((ctr.bytesRecv : ℚ) - (pc.bytesRecv : ℚ)) /
           (now - pt)
         [("net_send_rate_mbps", sendRate * 8 / 1024 ^ 2),
          ("net_recv_rate_mbps", recvRate * 8 / 1024 ^ 2),
          ("net_send_rate_kbps", sendRate / 1024),
          ("net_recv_rate_kbps", recvRate / 1024)]
       else [])

/-- Cumulative disk I/O counters (`psutil.disk_io_counters(perdisk=False)`). -/
structure DiskCounters where
  readBytes : ℤ
  writeBytes : ℤ
  readCount : ℤ
  writeCount : ℤ
  readTime : ℤ
  writeTime : ℤ
deriving DecidableEq, Repr

/-- The two disk throughput-rate keys. -/
def diskRateKeys : List String := ["disk_read_rate_mbps", "disk_write_rate_mbps"]

/-- Embedding of the I/O-statistics section of `DiskAdapter.collect_metrics`
(src/adapters/disk_adapter.py lines 133-196): the six absolute counters are
always emitted; the two throughput rates are emitted only when the previous
per-disk counters and timestamp are set, the elapsed time `now - pt` is
strictly positive (`if time_delta > 0`, line 175), the fresh counter re-read
is truthy, and `_prev_total_io` exists from an earlier call. Python
`round(x, 2)` display rounding is omitted; values are exact rationals. -/
def diskIoMetrics (ctr : DiskCounters) (hasPrevPerDisk : Bool)
    (prevTs : Option ℚ) (prevTotal : Option DiskCounters) (curReadOk : Bool)
    (now : ℚ) : List (String × ℚ) :=
  [("disk_read_bytes", (ctr.readBytes : ℚ)),
   ("disk_write_bytes", (ctr.writeBytes : ℚ)),
   ("disk_read_count", (ctr.readCount : ℚ)),
   ("disk_write_count", (ctr.writeCount : ℚ)),
   ("disk_read_time_ms", (ctr.readTime : ℚ)),
   ("disk_write_time_ms", (ctr.writeTime : ℚ))] ++
  (if hasPrevPerDisk then
     match prevTs with
     | none => []
     | some pt =>
         if now - pt > 0 then
           if curReadOk then
             match prevTotal with
             | none => []
             | some pv =>
                 [("disk_read_rate_mbps",
                   ((ctr.readBytes : ℚ) - (pv.readBytes : ℚ)) / (now - pt) /
                     1024 ^ 2),
                  ("disk_write_rate_mbps",
                   ((ctr.writeBytes : ℚ) - (pv.writeBytes : ℚ)) / (now - pt) /
                     1024 ^ 2)]
           else []
         else []
   else [])

/-- Per-field Boolean form of the significance test of `MetricsBuffer.add`,
used to characterize `checkSignificant` as an existential over the snapshot. -/
def fieldSignificantB (lastVals : LastVals) (thr : ℚ) (p : String × PyVal) :
    Bool :=
  if p.1 = "timestamp" ∨ p.1 = "session_category" then false
  else
    match p.2 with
    | .str _ => false
    | .num q =>
        match dictFind p.1 lastVals with
        | some lv =>
            if lv ≠ 0 then decide (qabs (q - lv) / qabs lv * 100 ≥ thr)
            else decide (q ≠ 0)
        | none => true

theorem checkSignificant_eq_any (lastVals : LastVals) (thr : ℚ)
    (m : Snapshot) :
    checkSignificant lastVals thr m = m.any (fieldSignificantB lastVals thr) := by
  induction m with
  | nil => rfl
  | cons hd tl ih =>
      obtain ⟨k, v⟩ := hd
      by_cases hk : k = "timestamp" ∨ k = "session_category"
      · simp [checkSignificant, fieldSignificantB, hk, ih]
      · cases v with
        | str s => simp [checkSignificant, fieldSignificantB, hk, ih]
        | num q =>
            cases hfind : dictFind k lastVals with
            | none => simp [checkSignificant, fieldSignificantB, hk, hfind]
            | some lv =>
                by_cases hz : lv = 0
                · by_cases hq : q = 0
                  · simp [checkSignificant, fieldSignificantB, hk, hfind, hz,
                      hq, ih]
                  · simp [checkSignificant, fieldSignificantB, hk, hfind, hz,
                      hq]
                · by_cases hp : qabs (q - lv) / qabs lv * 100 ≥ thr
                  · simp [checkSignificant, fieldSignificantB, hk, hfind, hz,
                      hp]
                  · simp [checkSignificant, fieldSignificantB, hk, hfind, hz,
                      hp, ih]

theorem fieldSignificantB_iff (lastVals : LastVals) (thr : ℚ)
    (p : String × PyVal) :
    fieldSignificantB lastVals thr p = true ↔
      p.1 ≠ "timestamp" ∧ p.1 ≠ "session_category" ∧
        ∃ q, p.2 = PyVal.num q ∧ SignificantField lastVals thr p.1 q := by
  obtain ⟨k, v⟩ := p
  by_cases hk : k = "timestamp" ∨ k = "session_category"
  · rcases hk with h | h <;> simp [fieldSignificantB, h]
  · have hk1 : k ≠ "timestamp" := fun h => hk (Or.inl h)
    have hk2 : k ≠ "session_category" := fun h => hk (Or.inr h)
    cases v with
    | str s => simp [fieldSignificantB, hk]
    | num q =>
        cases hfind : dictFind k lastVals with
        | none =>
            simp [fieldSignificantB, hk, hfind, hk1, hk2, SignificantField]
        | some lv =>
            by_cases hz : lv = 0 <;>
              simp [fieldSignificantB, hk, hfind, hk1, hk2, SignificantField,
                hz]

theorem add_fst_of_delta (st : MetricsBuffer) (m : Snapshot)
    (h1 : st.enableDelta = true) (h2 : st.lastValues ≠ []) :
    (st.add m).1 = checkSignificant st.lastValues st.deltaThreshold m := by
  simp only [MetricsBuffer.add]
  rw [if_pos ⟨by simp [h1], h2⟩]
  by_cases hs : checkSignificant st.lastValues st.deltaThreshold m
  · rw [if_pos hs, hs]
  · rw [if_neg hs]
    simp [Bool.not_eq_true] at hs
    rw [hs]

theorem updateLastValues_of_no_num (m : Snapshot) :
    ∀ lv : LastVals, (∀ p ∈ m, p.2.isNum = false) →
      updateLastValues lv m = lv := by
  induction m with
  | nil => intro lv _; rfl
  | cons hd tl ih =>
      intro lv h
      obtain ⟨k, v⟩ := hd
      cases v with
      | num q =>
          have := h (k, .num q) (by simp)
          simp [PyVal.isNum] at this
      | str s =>
          exact ih lv fun p hp => h p (by simp [hp])

theorem addAll_no_num (ms : List Snapshot) :
    ∀ st : MetricsBuffer, st.lastValues = [] →
      (∀ m ∈ ms, ∀ p ∈ m, p.2.isNum = false) →
      (st.addAll ms).1 = List.replicate ms.length true ∧
        (st.addAll ms).2.lastValues = [] := by
  induction ms with
  | nil => intro st h _; exact ⟨rfl, h⟩
  | cons m rest ih =>
      intro st h hall
      have hm : ∀ p ∈ m, p.2.isNum = false := hall m (by simp)
      have h1 : (st.add m).1 = true := by simp [MetricsBuffer.add, h]
      have h2 : (st.add m).2.lastValues = [] := by
        simp [MetricsBuffer.add, h, updateLastValues_of_no_num m [] hm]
      obtain ⟨ra, rb⟩ := ih (st.add m).2 h2 fun mm hmm => hall mm (by simp [hmm])
      refine ⟨?_, ?_⟩
      · simp [MetricsBuffer.addAll, h1, ra, List.replicate_succ]
      · simp [MetricsBuffer.addAll, rb]

/-- C3 (counterexample): with the default threshold, after retaining the
snapshot `{a: 10}`, the snapshot `{a: 10, b: 0}` is retained by the code
(`add` returns true, because the previously-unseen field `b` is treated as
significant even though its value is zero), while the claim's retention rule
(change of at least the threshold, or newly non-zero where previously
zero/absent) classifies it as not significant, so the claim's
if-and-only-if fails at this input. -/
theorem delta_retention_claim_counterexample :
    ((MetricsBuffer.fresh.add [("a", PyVal.num 10)]).2.add
        [("a", PyVal.num 10), ("b", PyVal.num 0)]).1 = true ∧
      claimSignificant
          (MetricsBuffer.fresh.add [("a", PyVal.num 10)]).2.lastValues 2
          [("a", PyVal.num 10), ("b", PyVal.num 0)] = false := by
  constructor <;>
    (norm_num [MetricsBuffer.add, MetricsBuffer.fresh, updateLastValues,
      dictSet, checkSignificant, qabs, dictFind, claimSignificant] <;> decide)

/-- C3 (amended): with delta filtering enabled, `add` retains the first
snapshot after a reset (empty stored last values); for a later snapshot it
returns true if and only if some numeric field other than `timestamp` and
`session_category` either changed by at least the threshold relative to a
non-zero stored last value, or is non-zero where the stored last value is
zero, or has no stored last value at all (a previously-unseen field counts
as significant regardless of its value, including zero); retention is
all-or-nothing per snapshot, and a rejected snapshot leaves the state
unchanged. -/
theorem delta_buffer_retention_amended (st : MetricsBuffer) (m : Snapshot) :
    (st.lastValues = [] → (st.add m).1 = true) ∧
    (st.enableDelta = true → st.lastValues ≠ [] →
      ((st.add m).1 = true ↔
        ∃ p ∈ m, p.1 ≠ "timestamp" ∧ p.1 ≠ "session_category" ∧
          ∃ q, p.2 = PyVal.num q ∧
            SignificantField st.lastValues st.deltaThreshold p.1 q)) ∧
    ((st.add m).1 = false → (st.add m).2 = st) ∧
    ((st.add m).1 = true → (st.add m).2.buffer = st.buffer ++ [m]) := by
  refine ⟨?_, ?_, ?_, ?_⟩
  · intro h; simp [MetricsBuffer.add, h]
  · intro h1 h2
    rw [add_fst_of_delta st m h1 h2, checkSignificant_eq_any,
      List.any_eq_true]
    constructor
    · rintro ⟨p, hp, hf⟩
      exact ⟨p, hp, (fieldSignificantB_iff _ _ _).mp hf⟩
    · rintro ⟨p, hp, hf⟩
      exact ⟨p, hp, (fieldSignificantB_iff _ _ _).mpr hf⟩
  · intro h
    simp only [MetricsBuffer.add] at h ⊢
    split at h
    · split at h
      · simp at h
      · split
        · simp_all
        · rfl
    · simp at h
  · intro h
    simp only [MetricsBuffer.add] at h ⊢
    split at h
    · split at h
      · split
        · rfl
        · simp_all
      · simp at h
    · split
      · simp_all
      · rfl

theorem delta_buffer_retention_amended_witness :
    ((MetricsBuffer.fresh.add [("a", PyVal.num 10)]).2.add
        [("a", PyVal.num 10), ("b", PyVal.num 0)]).1 = true := by
  have h := (delta_buffer_retention_amended
    (MetricsBuffer.fresh.add [("a", PyVal.num 10)]).2
    [("a", PyVal.num 10), ("b", PyVal.num 0)]).2.1 rfl (by decide)
  refine h.mpr ⟨("b", PyVal.num 0), by decide, by decide, by decide,
    ⟨0, rfl, ?_⟩⟩
  have hfind : dictFind "b"
      (MetricsBuffer.fresh.add [("a", PyVal.num 10)]).2.lastValues = none := by
    decide
  simp [SignificantField, hfind]

/-- C10: whenever the stored last-retained numeric values are empty, the
delta filter is bypassed and `MetricsBuffer.add` returns true regardless of
the threshold; consequently, if every snapshot added so far contained no
numeric field, the stored values stay empty and every `add` in the sequence
returns true. -/
theorem delta_filter_bypass_empty (st : MetricsBuffer)
    (h : st.lastValues = []) :
    (∀ m, (st.add m).1 = true) ∧
    ∀ ms, (∀ m ∈ ms, ∀ p ∈ m, p.2.isNum = false) →
      (st.addAll ms).1 = List.replicate ms.length true ∧
        (st.addAll ms).2.lastValues = [] :=
  ⟨fun m => by simp [MetricsBuffer.add, h],
   fun ms hall => addAll_no_num ms st h hall⟩

theorem delta_filter_bypass_empty_witness :
    (MetricsBuffer.fresh.addAll
        [[("k", PyVal.str "a")], [("k", PyVal.str "b")]]).1 = [true, true] := by
  have h := (delta_filter_bypass_empty MetricsBuffer.fresh rfl).2
    [[("k", PyVal.str "a")], [("k", PyVal.str "b")]] (by decide)
  simpa using h.1

/-- C1 (code evaluation at the failing input): within one process, writing a
record with columns {x, y} and then a record with columns {x, y, z} through
the categorized writer leaves the file header as exactly [x, y] — the header
is not rewritten to include z, and z's value is silently dropped from the
second row by `extrasaction="ignore"` — contradicting the claim that the
resulting file has a header that is a superset containing x, y and z. -/
theorem schema_evolution_header_not_rewritten :
    writeRecord (writeRecord WriterFile.empty
        [("x", PyVal.str "1"), ("y", PyVal.str "2")])
        [("x", PyVal.str "1"), ("y", PyVal.str "2"), ("z", PyVal.str "3")] =
      { fileHeader := some ["x", "y"],
        fileRows := [["1", "2"], ["1", "2"]],
        writerFields := some ["x", "y"] } ∧
      (["x", "y"].contains "z") = false := by decide

/-- C2 (code evaluation at the failing input): for a snapshot that
categorizes into both a cpu row and a network row, an I/O failure raised
while writing the cpu row propagates out of `write_metrics` — the call
raises, no rows_written map is returned, and the network row is never
written (cpu precedes network in the iteration order), contradicting the
claim that other hardware types are still written and the call does not
raise. In the failure-free run the same snapshot yields both rows. -/
theorem write_metrics_raises_on_failure :
    writeMetricsRun ["cpu"]
        [("total_utilization", PyVal.num 50), ("net_bytes_sent", PyVal.num 1)]
        "t" "h" = .error [] ∧
      writeMetricsRun []
        [("total_utilization", PyVal.num 50), ("net_bytes_sent", PyVal.num 1)]
        "t" "h" = .ok [("cpu", 1), ("network", 1)] := by
  constructor <;> rfl

/-- C5 (counterexample): the key `net_io_total` belongs to the claim's
network rule set (it starts with `net_`), yet a snapshot containing only
that key produces a disk row in addition to the network row, because the
disk rules also match the `io_` substring — refuting the claim that such a
snapshot produces a row only in the network file. -/
theorem categorization_network_only_counterexample :
    claimNetRule "net_io_total" = true ∧
      rowsWritten [("net_io_total", PyVal.num 5)] "t" "h" =
        [("disk", 1), ("network", 1)] := by decide

/-- C5 (amended): for every snapshot whose keys besides `timestamp` and
`hardware_id` are non-empty, all match the network rule set, and none of
those keys also matches the cpu, nvidia-gpu, intel-gpu, memory or disk
rules, `write_metrics` produces exactly one row in the network file and no
row in any other hardware type's file for that tick (the `timestamp` and
`hardware_id` keys themselves match no rule set, which the proof
establishes rather than assumes); every hardware type with zero matching
keys contributes no row. -/
theorem categorization_network_only_amended (metrics : Snapshot)
    (ts hid : String)
    (hne : ∃ p ∈ metrics, p.1 ≠ "timestamp" ∧ p.1 ≠ "hardware_id")
    (hrules : ∀ p ∈ metrics, p.1 ≠ "timestamp" → p.1 ≠ "hardware_id" →
      netKeep p.1 = true ∧ cpuKeep p.1 = false ∧ gpuKeep p.1 = false ∧
        intelKeep p.1 = false ∧ memKeep p.1 = false ∧ diskKeep p.1 = false) :
    rowsWritten metrics ts hid = [("network", 1)] ∧
      categorizeMetrics metrics ts hid =
        [("cpu", []), ("gpu_nvidia", []), ("gpu_intel", []), ("memory", []),
         ("disk", []),
         ("network", [addMatched "" netKeep
            [("timestamp", .str ts), ("hardware_id", .str hid)] metrics])] := by
  have hsp : ∀ p : String × PyVal, p.1 = "timestamp" ∨ p.1 = "hardware_id" →
      cpuKeep p.1 = false ∧ gpuKeep p.1 = false ∧ intelKeep p.1 = false ∧
        memKeep p.1 = false ∧ diskKeep p.1 = false := by
    rintro p (h | h) <;> rw [h] <;>
      exact ⟨by decide, by decide, by decide, by decide, by decide⟩
  have hanyN : metrics.any (fun p => netKeep p.1) = true := by
    obtain ⟨p, hp, h1, h2⟩ := hne
    exact List.any_eq_true.mpr ⟨p, hp, (hrules p hp h1 h2).1⟩
  have hanyC : metrics.any (fun p => cpuKeep p.1) = false := by
    rw [List.any_eq_false]; intro p hp
    by_cases h1 : p.1 = "timestamp"
    · simp [(hsp p (Or.inl h1)).1]
    · by_cases h2 : p.1 = "hardware_id"
      · simp [(hsp p (Or.inr h2)).1]
      · simp [(hrules p hp h1 h2).2.1]
  have hanyG : metrics.any (fun p => gpuKeep p.1) = false := by
    rw [List.any_eq_false]; intro p hp
    by_cases h1 : p.1 = "timestamp"
    · simp [(hsp p (Or.inl h1)).2.1]
    · by_cases h2 : p.1 = "hardware_id"
      · simp [(hsp p (Or.inr h2)).2.1]
      · simp [(hrules p hp h1 h2).2.2.1]
  have hanyI : metrics.any (fun p => intelKeep p.1) = false := by
    rw [List.any_eq_false]; intro p hp
    by_cases h1 : p.1 = "timestamp"
    · simp [(hsp p (Or.inl h1)).2.2.1]
    · by_cases h2 : p.1 = "hardware_id"
      · simp [(hsp p (Or.inr h2)).2.2.1]
      · simp [(hrules p hp h1 h2).2.2.2.1]
  have hanyM : metrics.any (fun p => memKeep p.1) = false := by
    rw [List.any_eq_false]; intro p hp
    by_cases h1 : p.1 = "timestamp"
    · simp [(hsp p (Or.inl h1)).2.2.2.1]
    · by_cases h2 : p.1 = "hardware_id"
      · simp [(hsp p (Or.inr h2)).2.2.2.1]
      · simp [(hrules p hp h1 h2).2.2.2.2.1]
  have hanyD : metrics.any (fun p => diskKeep p.1) = false := by
    rw [List.any_eq_false]; intro p hp
    by_cases h1 : p.1 = "timestamp"
    · simp [(hsp p (Or.inl h1)).2.2.2.2]
    · by_cases h2 : p.1 = "hardware_id"
      · simp [(hsp p (Or.inr h2)).2.2.2.2]
      · simp [(hrules p hp h1 h2).2.2.2.2.2]
  have hcat : categorizeMetrics metrics ts hid =
      [("cpu", []), ("gpu_nvidia", []), ("gpu_intel", []), ("memory", []),
       ("disk", []),
       ("network", [addMatched "" netKeep
          [("timestamp", .str ts), ("hardware_id", .str hid)] metrics])] := by
    simp [categorizeMetrics, hanyN, hanyC, hanyG, hanyI, hanyM, hanyD]
  refine ⟨?_, hcat⟩
  rw [rowsWritten, hcat]
  rfl

theorem categorization_network_only_amended_witness :
    rowsWritten
      [("timestamp", PyVal.str "t0"), ("hardware_id", PyVal.str "h0"),
       ("net_bytes_sent", PyVal.num 100)] "t" "h" = [("network", 1)] :=
  (categorization_network_only_amended
    [("timestamp", PyVal.str "t0"), ("hardware_id", PyVal.str "h0"),
     ("net_bytes_sent", PyVal.num 100)]
    "t" "h" (by decide) (by decide)).1

/-- C6 (code evaluation at the failing input): a sync-state file whose
content is the valid JSON array `[]` is malformed persisted state, which the
design requires to fall back to the default empty state without failing
startup; instead `_load_sync_state` returns the array unchanged (only decode
and I/O errors are caught) and `_init_files` then raises `AttributeError` on
`.get`, so constructing the `DeviceDataManager` fails. -/
theorem corrupt_state_array_crashes_startup :
    loadSyncState (.parsed (.jarr [])) = .jarr [] ∧
      constructManager (.parsed (.jarr [])) (fun _ => 0) = .error () :=
  ⟨rfl, rfl⟩

/-- Supporting fact for the recovery paths the code does implement: when the
sync-state file is absent, unreadable (I/O error), or present but not
parseable as JSON, construction succeeds and the loaded sync state is the
default empty state (`{files: {}, last_sync: null, device_folder_id: null}`),
with every hardware type's cursor defaulted (no cloud file id, zero rows
uploaded). -/
theorem constructManager_defaults_on_unparseable (rowCount : String → ℕ)
    (c : SyncFileContent)
    (h : c = .absent ∨ c = .unreadable ∨ c = .invalidJson) :
    constructManager c rowCount =
      .ok (defaultSyncState,
        hardwareTypes.map fun t =>
          (t, JVal.jnull, JVal.jnum 0, JVal.jnull, rowCount t)) := by
  rcases h with h | h | h <;> subst h <;> rfl

theorem extractLoop_some {α : Type} (rows : List α) :
    ∀ i s e : ℕ,
      extractLoop rows i s (some e) = (rows.take (e - i)).drop (s - i) := by
  induction rows with
  | nil => intro i s e; simp [extractLoop]
  | cons r rest ih =>
      intro i s e
      simp only [extractLoop]
      by_cases h1 : i < s
      · rw [if_pos h1, ih]
        by_cases h2 : i < e
        · have he : e - i = (e - (i + 1)) + 1 := by omega
          have hs : s - i = (s - (i + 1)) + 1 := by omega
          rw [he, hs, List.take_succ_cons, List.drop_succ_cons]
        · have he : e - i = 0 := by omega
          have he2 : e - (i + 1) = 0 := by omega
          simp [he, he2]
      · rw [if_neg h1]
        by_cases h2 : i ≥ e
        · have he : e - i = 0 := by omega
          simp [h2, he]
        · have he : e - i = (e - (i + 1)) + 1 := by omega
          have hs : s - i = 0 := by omega
          have hs2 : s - (i + 1) = 0 := by omega
          simp only [ge_iff_le, decide_eq_true_eq]
          rw [if_neg (by omega : ¬ e ≤ i), ih, he, hs, hs2,
            List.take_succ_cons, List.drop_zero, List.drop_zero]
  
theorem extractLoop_none {α : Type} (rows : List α) :
    ∀ i s : ℕ, extractLoop rows i s none = rows.drop (s - i) := by
  induction rows with
  | nil => intro i s; simp [extractLoop]
  | cons r rest ih =>
      intro i s
      simp only [extractLoop]
      by_cases h1 : i < s
      · have hs : s - i = (s - (i + 1)) + 1 := by omega
        rw [if_pos h1, ih, hs, List.drop_succ_cons]
      · have hs : s - i = 0 := by omega
        have hs2 : s - (i + 1) = 0 := by omega
        rw [if_neg h1]
        rw [if_neg (by simp), ih, hs, hs2, List.drop_zero, List.drop_zero]

/-- C8: `extract_rows_from_csv` returns exactly the data rows with 0-based
indices in `[start_row, end_row)`, in file order — equivalently the `drop
start_row` then `take (end_row - start_row)` slice — and with no `end_row`
it returns every row from `start_row` onward; hence the sync engine
re-extracts precisely the not-yet-uploaded range. -/
theorem extract_rows_exact {α : Type} (rows : List α) (s e : ℕ)
    (h : s ≤ e) :
    extractRowsFromCsv rows s (some e) = (rows.drop s).take (e - s) ∧
      extractRowsFromCsv rows s none = rows.drop s := by
  constructor
  · rw [extractRowsFromCsv, extractLoop_some]
    simp [List.drop_take]
  · rw [extractRowsFromCsv, extractLoop_none]
    simp

theorem extract_rows_exact_witness :
    extractRowsFromCsv ["r0", "r1", "r2", "r3"] 1 (some 3) = ["r1", "r2"] ∧
      extractRowsFromCsv ["r0", "r1", "r2", "r3"] 1 none =
        ["r1", "r2", "r3"] := by
  have h := extract_rows_exact ["r0", "r1", "r2", "r3"] 1 3 (by decide)
  exact ⟨h.1.trans (by decide), h.2.trans (by decide)⟩

theorem dictFind_of_mem_nodup (fs : Files) (t : String) (f : HardwareFile)
    (hnd : (fs.map Prod.fst).Nodup) (hm : (t, f) ∈ fs) :
    dictFind t fs = some f := by
  induction fs with
  | nil => cases hm
  | cons hd tl ih =>
      obtain ⟨t0, g0⟩ := hd
      rcases List.mem_cons.mp hm with he | hm2
      · obtain ⟨h1, h2⟩ := Prod.mk.injEq .. ▸ he
        subst h1; subst h2
        simp [dictFind]
      · have hpair : (∀ x : HardwareFile, (t0, x) ∉ tl) ∧
            (tl.map Prod.fst).Nodup := by simpa using hnd
        have hne : t0 ≠ t := by
          intro h; subst h
          exact hpair.1 f hm2
        rw [dictFind, if_neg hne]
        exact ih hpair.2 hm2

theorem markUploaded_keys (fs : Files) (tk : String) (n : ℕ) (cid : String) :
    (markUploaded fs tk n cid).map Prod.fst = fs.map Prod.fst := by
  induction fs with
  | nil => rfl
  | cons hd tl ih =>
      obtain ⟨t0, g0⟩ := hd
      by_cases h : t0 = tk <;> simp [markUploaded, h, ih]

theorem dictFind_markUploaded (fs : Files) (tk : String) (n : ℕ)
    (cid : String) (t : String) :
    dictFind t (markUploaded fs tk n cid) =
      if t = tk then
        (dictFind t fs).map fun g =>
          { g with lastRowUploaded := n, cloudFileId := some cid }
      else dictFind t fs := by
  induction fs with
  | nil => by_cases h : t = tk <;> simp [markUploaded, dictFind, h]
  | cons hd tl ih =>
      obtain ⟨t0, g0⟩ := hd
      by_cases h0 : t0 = tk
      · subst h0
        by_cases ht : t0 = t
        · subst ht
          simp [markUploaded, dictFind]
        · rw [markUploaded, if_pos rfl, dictFind, if_neg ht, dictFind,
            if_neg ht, if_neg (fun h => ht h.symm)]
      · rw [markUploaded, if_neg h0]
        by_cases ht : t0 = t
        · subst ht
          have : ¬ t0 = tk := h0
          simp [dictFind, this]
        · rw [dictFind, if_neg ht, ih, dictFind, if_neg ht]

theorem pending_filter_not_mem (fs : Files) (t : String)
    (h : t ∉ fs.map Prod.fst) :
    (getPendingUploads fs).filter (fun x => decide (x.1 = t)) = [] := by
  induction fs with
  | nil => rfl
  | cons hd tl ih =>
      obtain ⟨t0, g0⟩ := hd
      have hne : t0 ≠ t := by
        intro he; exact h (by simp [he])
      have htl : t ∉ tl.map Prod.fst := fun hm => h (by simp [hm])
      by_cases hp : g0.totalRows > g0.lastRowUploaded
      · rw [getPendingUploads, if_pos hp, List.filter_cons]
        simp only [decide_eq_true_eq]
        rw [if_neg (by simpa using hne)]
        exact ih htl
      · rw [getPendingUploads, if_neg hp]
        exact ih htl

theorem pending_filter_key (fs : Files) (t : String)
    (hnd : (fs.map Prod.fst).Nodup) :
    (getPendingUploads fs).filter (fun x => decide (x.1 = t)) =
      match dictFind t fs with
      | none => []
      | some g =>
          if g.lastRowUploaded < g.totalRows then
            [(t, g.localPath, g.lastRowUploaded, g.totalRows)]
          else [] := by
  induction fs with
  | nil => rfl
  | cons hd tl ih =>
      obtain ⟨t0, g0⟩ := hd
      have hpair : (∀ x : HardwareFile, (t0, x) ∉ tl) ∧
          (tl.map Prod.fst).Nodup := by simpa using hnd
      have hnd2 : (tl.map Prod.fst).Nodup := hpair.2
      have ht0 : t0 ∉ (tl.map Prod.fst) := by
        intro hm
        obtain ⟨⟨a, b⟩, hab, he⟩ := List.mem_map.mp hm
        cases he
        exact hpair.1 b hab
      by_cases ht : t0 = t
      · subst ht
        rw [dictFind, if_pos rfl]
        by_cases hp : g0.totalRows > g0.lastRowUploaded
        · rw [getPendingUploads, if_pos hp, List.filter_cons]
          simp only [decide_eq_true_eq, if_pos rfl]
          rw [pending_filter_not_mem tl t0 ht0]
          simp [hp]
        · rw [getPendingUploads, if_neg hp, pending_filter_not_mem tl t0 ht0]
          have : ¬ g0.lastRowUploaded < g0.totalRows := hp
          simp [this]
      · rw [dictFind, if_neg ht]
        by_cases hp : g0.totalRows > g0.lastRowUploaded
        · rw [getPendingUploads, if_pos hp, List.filter_cons]
          simp only [decide_eq_true_eq]
          rw [if_neg (by simpa using ht)]
          exact ih hnd2
        · rw [getPendingUploads, if_neg hp]
          exact ih hnd2

theorem mem_getPendingUploads (fs : Files) (a p : String) (sr er : ℕ) :
    (a, p, sr, er) ∈ getPendingUploads fs ↔
      ∃ g : HardwareFile, (a, g) ∈ fs ∧ g.lastRowUploaded < g.totalRows ∧
        p = g.localPath ∧ sr = g.lastRowUploaded ∧ er = g.totalRows := by
  induction fs with
  | nil => simp [getPendingUploads]
  | cons hd tl ih =>
      obtain ⟨t0, g0⟩ := hd
      by_cases hp : g0.totalRows > g0.lastRowUploaded
      · rw [getPendingUploads, if_pos hp]
        constructor
        · intro hx
          rcases List.mem_cons.mp hx with he | hm
          · obtain ⟨h1, h2, h3, h4⟩ := Prod.mk.injEq .. ▸ he
            subst h1
            refine ⟨g0, by simp, hp, ?_⟩
            simp_all
          · obtain ⟨g, hg, hlt, h1, h2, h3⟩ := ih.mp hm
            exact ⟨g, by simp [hg], hlt, h1, h2, h3⟩
        · rintro ⟨g, hg, hlt, h1, h2, h3⟩
          rcases List.mem_cons.mp hg with he | hm
          · obtain ⟨h4, h5⟩ := Prod.mk.injEq .. ▸ he
            subst h4; subst h5
            subst h1; subst h2; subst h3
            exact List.mem_cons_self _ _
          · exact List.mem_cons_of_mem _ (ih.mpr ⟨g, hm, hlt, h1, h2, h3⟩)
      · rw [getPendingUploads, if_neg hp]
        rw [ih]
        constructor
        · rintro ⟨g, hg, hlt, h1, h2, h3⟩
          exact ⟨g, by simp [hg], hlt, h1, h2, h3⟩
        · rintro ⟨g, hg, hlt, h1, h2, h3⟩
          rcases List.mem_cons.mp hg with he | hm
          · obtain ⟨h4, h5⟩ := Prod.mk.injEq .. ▸ he
            subst h5
            exact absurd hlt hp
          · exact ⟨g, hm, hlt, h1, h2, h3⟩

/-- C4: sync cursor round-trip. After `mark_uploaded(t, N, id)`, the entry
for `t` carries cursor `N` and the cloud file id; `get_pending_uploads`
yields no tuple for `t` when `total_rows = N`, and exactly the tuple
`(t, path, N, total_rows)` when `total_rows > N`; in general a tuple
`(a, p, start, end)` is pending iff the tracker holds an entry for `a` with
`total_rows > last_row_uploaded`, `start = last_row_uploaded` and
`end = total_rows`. -/
theorem sync_cursor_round_trip (fs : Files) (t : String) (f : HardwareFile)
    (n : ℕ) (cid : String) (hnd : (fs.map Prod.fst).Nodup)
    (hmem : (t, f) ∈ fs) :
    (dictFind t (markUploaded fs t n cid) =
      some { f with lastRowUploaded := n, cloudFileId := some cid }) ∧
    (f.totalRows = n →
      (getPendingUploads (markUploaded fs t n cid)).filter
        (fun x => decide (x.1 = t)) = []) ∧
    (n < f.totalRows →
      (getPendingUploads (markUploaded fs t n cid)).filter
        (fun x => decide (x.1 = t)) = [(t, f.localPath, n, f.totalRows)]) ∧
    (∀ a p sr er, (a, p, sr, er) ∈ getPendingUploads (markUploaded fs t n cid) ↔
      ∃ g : HardwareFile, (a, g) ∈ markUploaded fs t n cid ∧
        g.lastRowUploaded < g.totalRows ∧ p = g.localPath ∧
        sr = g.lastRowUploaded ∧ er = g.totalRows) := by
  have hfind : dictFind t fs = some f := dictFind_of_mem_nodup fs t f hnd hmem
  have hfind2 : dictFind t (markUploaded fs t n cid) =
      some { f with lastRowUploaded := n, cloudFileId := some cid } := by
    rw [dictFind_markUploaded, if_pos rfl, hfind]
    rfl
  have hnd2 : ((markUploaded fs t n cid).map Prod.fst).Nodup := by
    rw [markUploaded_keys]; exact hnd
  refine ⟨hfind2, ?_, ?_, ?_⟩
  · intro h
    rw [pending_filter_key _ t hnd2, hfind2]
    simp [h]
  · intro h
    rw [pending_filter_key _ t hnd2, hfind2]
    simp [h]
  · intro a p sr er
    exact mem_getPendingUploads (markUploaded fs t n cid) a p sr er

theorem sync_cursor_round_trip_witness :
    (getPendingUploads (markUploaded
        [("cpu", ⟨"p", none, 0, 3, none⟩), ("disk", ⟨"q", none, 0, 0, none⟩)]
        "cpu" 1 "id")).filter (fun x => decide (x.1 = "cpu")) =
      [("cpu", "p", 1, 3)] :=
  (sync_cursor_round_trip
    [("cpu", ⟨"p", none, 0, 3, none⟩), ("disk", ⟨"q", none, 0, 0, none⟩)]
    "cpu" ⟨"p", none, 0, 3, none⟩ 1 "id" (by decide) (by decide)).2.2.1
    (by decide)

theorem dictFind_incrRows (added : List (String × ℕ)) (ts : String)
    (fs : Files) (t : String) :
    dictFind t (incrRows added ts fs) =
      (dictFind t fs).map fun g =>
        { g with totalRows := g.totalRows + (dictFind t added).getD 0,
                 lastModified := if (dictFind t added).getD 0 > 0 then some ts
                   else g.lastModified } := by
  induction fs with
  | nil => rfl
  | cons hd tl ih =>
      obtain ⟨t0, g0⟩ := hd
      by_cases ht : t0 = t
      · subst ht
        simp [incrRows, dictFind]
      · rw [incrRows]
        rw [dictFind, if_neg ht, dictFind, if_neg ht, ih]

theorem totalOf_incrRows_le (added : List (String × ℕ)) (ts : String)
    (fs : Files) (t : String) :
    totalOf fs t ≤ totalOf (incrRows added ts fs) t := by
  rw [totalOf, totalOf, dictFind_incrRows]
  cases dictFind t fs <;> simp

theorem lastOf_incrRows (added : List (String × ℕ)) (ts : String)
    (fs : Files) (t : String) :
    lastOf (incrRows added ts fs) t = lastOf fs t := by
  rw [lastOf, lastOf, dictFind_incrRows]
  cases dictFind t fs <;> simp

theorem totalOf_markUploaded (fs : Files) (tk : String) (n : ℕ)
    (cid : String) (t : String) :
    totalOf (markUploaded fs tk n cid) t = totalOf fs t := by
  rw [totalOf, totalOf, dictFind_markUploaded]
  by_cases ht : t = tk
  · rw [if_pos ht]
    cases dictFind t fs <;> simp
  · rw [if_neg ht]

theorem totalOf_applyEvent_le (fs : Files) (e : DMEvent) (t : String) :
    totalOf fs t ≤ totalOf (applyEvent fs e) t := by
  cases e with
  | write a ts => exact totalOf_incrRows_le a ts fs t
  | mark tk n cid => rw [applyEvent, totalOf_markUploaded]

theorem totalOf_runEvents_le (evs : List DMEvent) :
    ∀ (fs : Files) (t : String), totalOf fs t ≤ totalOf (runEvents fs evs) t := by
  induction evs with
  | nil => intro fs t; exact le_refl _
  | cons e tl ih =>
      intro fs t
      exact le_trans (totalOf_applyEvent_le fs e t) (ih (applyEvent fs e) t)

theorem runEvents_append (l1 l2 : List DMEvent) :
    ∀ fs : Files, runEvents fs (l1 ++ l2) = runEvents (runEvents fs l1) l2 := by
  induction l1 with
  | nil => intro fs; rfl
  | cons e tl ih => intro fs; rw [List.cons_append, runEvents, runEvents, ih]

theorem totalOf_take_le (fs : Files) (evs : List DMEvent) (k : ℕ)
    (t : String) :
    totalOf (runEvents fs (evs.take k)) t ≤ totalOf (runEvents fs evs) t := by
  conv_rhs => rw [← List.take_append_drop k evs]
  rw [runEvents_append]
  exact totalOf_runEvents_le _ _ _

theorem inv_write (added : List (String × ℕ)) (ts : String) (fs : Files)
    (h : ∀ t, lastOf fs t ≤ totalOf fs t) :
    ∀ t, lastOf (incrRows added ts fs) t ≤ totalOf (incrRows added ts fs) t := by
  intro t
  rw [lastOf_incrRows]
  exact le_trans (h t) (totalOf_incrRows_le added ts fs t)

theorem inv_mark (fs : Files) (tk : String) (n : ℕ) (cid : String)
    (hn : n ≤ totalOf fs tk) (h : ∀ t, lastOf fs t ≤ totalOf fs t) :
    ∀ t, lastOf (markUploaded fs tk n cid) t ≤
      totalOf (markUploaded fs tk n cid) t := by
  intro t
  rw [totalOf_markUploaded]
  by_cases ht : t = tk
  · subst ht
    rw [lastOf, dictFind_markUploaded, if_pos rfl]
    cases hf : dictFind t fs with
    | none => simp
    | some g => exact hn
  · rw [lastOf, dictFind_markUploaded, if_neg ht]
    exact h t

/-- C7: cursor invariant. Over any trace of `write_metrics` and
`mark_uploaded` events in one process lifetime, starting from a state where
every type's `total_rows` is at least its `last_row_uploaded`, and where —
as `CloudSyncManager.sync` guarantees — each `mark_uploaded(t, n, id)` uses
as `n` the `end_row` of a pending tuple computed at some earlier point
(i.e. `n` equals the `total_rows` of `t` at that earlier state, and the call
is made only after a confirmed successful remote write), `total_rows` is
monotonically non-decreasing along the trace and `total_rows ≥
last_row_uploaded` holds in the final state. -/
theorem cursor_invariant_monotone (fs0 : Files) (evs : List DMEvent)
    (hInv : ∀ t, lastOf fs0 t ≤ totalOf fs0 t)
    (hProto : SyncProtocol fs0 evs) :
    (∀ t, lastOf (runEvents fs0 evs) t ≤ totalOf (runEvents fs0 evs) t) ∧
      ∀ k t, totalOf (runEvents fs0 (evs.take k)) t ≤
        totalOf (runEvents fs0 evs) t := by
  refine ⟨?_, fun k t => totalOf_take_le fs0 evs k t⟩
  induction evs using List.reverseRecOn with
  | nil => exact hInv
  | append_singleton l e ihl =>
      have hPl : SyncProtocol fs0 l := by
        intro i t n cid h
        have hi : i < l.length := by
          by_contra hge
          rw [List.getElem?_eq_none (by omega)] at h
          cases h
        have h2 : (l ++ [e])[i]? = some (.mark t n cid) := by
          rw [List.getElem?_append_left hi]
          exact h
        obtain ⟨j, hj, hn⟩ := hProto i t n cid h2
        refine ⟨j, hj, ?_⟩
        rwa [List.take_append_of_le_length (by omega)] at hn
      have hIl := ihl hPl
      rw [runEvents_append]
      cases e with
      | write a ts => exact inv_write a ts _ hIl
      | mark tk n cid =>
          have hme : (l ++ [DMEvent.mark tk n cid])[l.length]? =
              some (.mark tk n cid) := by
            simp
          obtain ⟨j, hj, hn⟩ := hProto l.length tk n cid hme
          rw [List.take_append_of_le_length hj] at hn
          have hnle : n ≤ totalOf (runEvents fs0 l) tk := by
            rw [hn]
            exact totalOf_take_le fs0 l j tk
          exact inv_mark _ tk n cid hnle hIl

theorem cursor_invariant_monotone_witness :
    lastOf (runEvents [("cpu", ⟨"p", none, 0, 0, none⟩)]
        [.write [("cpu", 2)] "t1", .mark "cpu" 2 "id"]) "cpu" ≤
      totalOf (runEvents [("cpu", ⟨"p", none, 0, 0, none⟩)]
        [.write [("cpu", 2)] "t1", .mark "cpu" 2 "id"]) "cpu" :=
  (cursor_invariant_monotone [("cpu", ⟨"p", none, 0, 0, none⟩)]
    [.write [("cpu", 2)] "t1", .mark "cpu" 2 "id"]
    (fun t => by
      rw [lastOf, totalOf]
      by_cases ht : ("cpu" : String) = t
      · simp [dictFind, ht]
      · simp [dictFind, ht])
    (by
      intro i t n cid h
      rcases i with _ | _ | i
      · simp at h
      · simp only [List.getElem?_cons_succ, List.getElem?_cons_zero,
          Option.some.injEq] at h
        obtain ⟨h1, h2, h3⟩ := DMEvent.mark.injEq .. ▸ h
        subst h1; subst h2
        exact ⟨1, le_refl 1, by decide⟩
      · simp at h)).1 "cpu"

/-- C9: rate safety. For two consecutive `collect_metrics` calls whose
elapsed wall time is zero or negative, the network and disk adapters emit
only the absolute counter metrics: every throughput-rate field is omitted
(the rate computation, the only division, is guarded by `time_delta > 0`),
so no emitted value can be NaN or Infinity; with no previous sample the rate
fields are likewise absent. -/
theorem adapter_rate_safety (nctr pc : NetCounters) (pt now : ℚ)
    (dctr : DiskCounters) (hasPrevPerDisk : Bool)
    (prevTotal : Option DiskCounters) (curReadOk : Bool)
    (h : now - pt ≤ 0) :
    netIoMetrics nctr (some (pc, pt)) now =
      [("net_bytes_sent", (nctr.bytesSent : ℚ)),
       ("net_bytes_recv", (nctr.bytesRecv : ℚ)),
       ("net_packets_sent", (nctr.packetsSent : ℚ)),
       ("net_packets_recv", (nctr.packetsRecv : ℚ)),
       ("net_errin", (nctr.errin : ℚ)),
       ("net_errout", (nctr.errout : ℚ)),
       ("net_dropin", (nctr.dropin : ℚ)),
       ("net_dropout", (nctr.dropout : ℚ))] ∧
    (∀ k ∈ netRateKeys,
      k ∉ (netIoMetrics nctr (some (pc, pt)) now).map Prod.fst) ∧
    netIoMetrics nctr none now = netIoMetrics nctr (some (pc, pt)) now ∧
    diskIoMetrics dctr hasPrevPerDisk (some pt) prevTotal curReadOk now =
      [("disk_read_bytes", (dctr.readBytes : ℚ)),
       ("disk_write_bytes", (dctr.writeBytes : ℚ)),
       ("disk_read_count", (dctr.readCount : ℚ)),
       ("disk_write_count", (dctr.writeCount : ℚ)),
       ("disk_read_time_ms", (dctr.readTime : ℚ)),
       ("disk_write_time_ms", (dctr.writeTime : ℚ))] ∧
    (∀ k ∈ diskRateKeys,
      k ∉ (diskIoMetrics dctr hasPrevPerDisk (some pt) prevTotal curReadOk
        now).map Prod.fst) := by
  have hng : ¬ (0 < now - pt) := not_lt.mpr h
  have hnet : netIoMetrics nctr (some (pc, pt)) now =
      [("net_bytes_sent", (nctr.bytesSent : ℚ)),
       ("net_bytes_recv", (nctr.bytesRecv : ℚ)),
       ("net_packets_sent", (nctr.packetsSent : ℚ)),
       ("net_packets_recv", (nctr.packetsRecv : ℚ)),
       ("net_errin", (nctr.errin : ℚ)),
       ("net_errout", (nctr.errout : ℚ)),
       ("net_dropin", (nctr.dropin : ℚ)),
       ("net_dropout", (nctr.dropout : ℚ))] := by
    rw [netIoMetrics.eq_def]
    simp [hng]
  have hdisk : diskIoMetrics dctr hasPrevPerDisk (some pt) prevTotal
      curReadOk now =
      [("disk_read_bytes", (dctr.readBytes : ℚ)),
       ("disk_write_bytes", (dctr.writeBytes : ℚ)),
       ("disk_read_count", (dctr.readCount : ℚ)),
       ("disk_write_count", (dctr.writeCount : ℚ)),
       ("disk_read_time_ms", (dctr.readTime : ℚ)),
       ("disk_write_time_ms", (dctr.writeTime : ℚ))] := by
    rw [diskIoMetrics.eq_def]
    cases hasPrevPerDisk <;> simp [hng]
  have hkeys : (netIoMetrics nctr (some (pc, pt)) now).map Prod.fst =
      ["net_bytes_sent", "net_bytes_recv", "net_packets_sent",
       "net_packets_recv", "net_errin", "net_errout", "net_dropin",
       "net_dropout"] := by
    rw [hnet]
    rfl
  have hdkeys : (diskIoMetrics dctr hasPrevPerDisk (some pt) prevTotal
      curReadOk now).map Prod.fst =
      ["disk_read_bytes", "disk_write_bytes", "disk_read_count",
       "disk_write_count", "disk_read_time_ms", "disk_write_time_ms"] := by
    rw [hdisk]
    rfl
  refine ⟨hnet, ?_, ?_, hdisk, ?_⟩
  · intro k hk
    rw [hkeys]
    simp [netRateKeys] at hk
    rcases hk with rfl | rfl | rfl | rfl <;> decide
  · rw [hnet, netIoMetrics.eq_def]
    simp
  · intro k hk
    rw [hdkeys]
    simp [diskRateKeys] at hk
    rcases hk with rfl | rfl <;> decide

theorem adapter_rate_safety_witness :
    netIoMetrics ⟨1, 2, 3, 4, 5, 6, 7, 8⟩
        (some (⟨1, 2, 3, 4, 5, 6, 7, 8⟩, 5)) 5 =
      [("net_bytes_sent", 1), ("net_bytes_recv", 2),
       ("net_packets_sent", 3), ("net_packets_recv", 4),
       ("net_errin", 5), ("net_errout", 6),
       ("net_dropin", 7), ("net_dropout", 8)] :=
  (adapter_rate_safety ⟨1, 2, 3, 4, 5, 6, 7, 8⟩ ⟨1, 2, 3, 4, 5, 6, 7, 8⟩ 5 5
    ⟨1, 2, 3, 4, 5, 6⟩ true none true (by norm_num)).1
